import Mathlib

/-!
Shallow embedding of the hobbyDB catalog scraper (src/hobbydb_scraper.py).

Raw JSON items are modelled as records of optional / defaulted string fields,
matching the way the script reads them via item.get(key, default) and str().
The clock (datetime.now().isoformat()) is passed in explicitly as a string
parameter named now, so normalization is a pure function of its inputs, as the
spec states.  The remote service is modelled as a pair of response functions
(one per endpoint); a failed page fetch only causes a retry of the same offset
in the script, so it is invisible to the state evolution and the page function
is taken to be the sequence of successful responses, while a failed subvariant
fetch already returns the empty list in the script itself.
-/

set_option maxHeartbeats 1000000
set_option maxRecDepth 4096

namespace PopCollector

open List

/-- Boolean substring test, modelling the Python expression pat in s. -/
def strInfix (pat s : String) : Bool :=
  decide (pat.data <:+: s.data)

/-- Python str.lower() over ASCII text, character by character. -/
def pyLower (s : String) : String :=
  String.mk (s.data.map Char.toLower)

/-- A raw catalog item as the script reads it: each field holds the string
form of the JSON value, with none for an absent key where the script tests
key presence, and the empty string standing for item.get(key, ~) defaults.
catalog_item_master_id is some s precisely when the item carries a
catalog_item dictionary containing a master_id key whose str() form is s. -/
structure Item where
  id : Option String := none
  hdbid : Option String := none
  name : String := ""
  number : String := ""
  series : String := ""
  image_url : String := ""
  description : String := ""
  category : String := ""
  brand : String := ""
  upc : String := ""
  release_date : String := ""
  prod_status : String := ""
  estimated_value : String := ""
  estimated_value_currency : String := ""
  slug : String := ""
  ref_number : String := ""
  scale : String := ""
  aka : String := ""
  catalog_item_type_name : String := ""
  master_id : Option String := none
  catalog_item_master_id : Option String := none
deriving DecidableEq

/-- One CSV row in the exact column set of get_csv_headers. -/
structure Row where
  hdbid : String
  name : String
  number : String
  series : String
  image_url : String
  description : String
  category : String
  brand : String
  upc : String
  release_date : String
  prod_status : String
  estimated_value : String
  estimated_value_currency : String
  slug : String
  ref_number : String
  scale : String
  aka : String
  catalog_item_type_name : String
  scraped_date : String
  is_master_variant : String
  master_variant_hdbid : String
  variant_type : String
  stickers : String
  exclusivity : String
  is_autographed : String
  signed_by : String
  features : String
deriving DecidableEq

/-- The identifier the script computes as str(item.get(~id~, item.get(~hdbid~, ~~))). -/
def hdbidOf (item : Item) : String :=
  match item.id with
  | some s => s
  | none => item.hdbid.getD ""

/-- Python a or b on an optional string a (None and the empty string are falsy). -/
def pyOr (a : Option String) (b : String) : String :=
  match a with
  | some s => if s = "" then b else s
  | none => b

/-- extract_master_variant_info: the top-level master_id key is used when
present and truthy, else the master_id key of a catalog_item dictionary is
returned (with no truthiness check, exactly as in the source). -/
def extract_master_variant_info (item : Item) : Option String :=
  match item.master_id with
  | some s => if s = "" then item.catalog_item_master_id else some s
  | none => item.catalog_item_master_id

/-- The feature keyword lexicon of extract_stickers, in Python dict insertion
order. -/
def featureLexicon : List (String × String) :=
  [("chase", "Chase"), ("glow", "Glow in the Dark"), ("gitd", "Glow in the Dark"),
   ("metallic", "Metallic"), ("flocked", "Flocked"), ("chrome", "Chrome"),
   ("blacklight", "Blacklight"), ("diamond", "Diamond"), ("gold", "Gold"),
   ("translucent", "Translucent"), ("scented", "Scented")]

/-- The lowercase search string of extract_stickers:
f-string of name, prod_status, description. -/
def stickerSearchText (item : Item) : String :=
  pyLower item.name ++ " " ++ pyLower item.prod_status ++ " " ++ pyLower item.description

/-- The two false-positive suppressions of extract_stickers. -/
def stickerSkip (keyword t : String) : Bool :=
  (keyword == "diamond" && strInfix "diamond select" t) ||
  (keyword == "gold" && strInfix "golden" t)

/-- The keyword scan loop of extract_stickers: append the label when the
keyword occurs, the label is not already collected, and no suppression fires. -/
def stickersLoop (t : String) : List (String × String) → List String → List String
  | [], acc => acc
  | (kw, lb) :: rest, acc =>
    if strInfix kw t ∧ lb ∉ acc ∧ ¬ stickerSkip kw t then
      stickersLoop t rest (acc ++ [lb])
    else
      stickersLoop t rest acc

/-- extract_stickers. -/
def extract_stickers (item : Item) : List String :=
  stickersLoop (stickerSearchText item) featureLexicon []

/-- The lowercase search string of extract_exclusivity:
f-string of name, series, description. -/
def exclSearchText (item : Item) : String :=
  pyLower item.name ++ " " ++ pyLower item.series ++ " " ++ pyLower item.description

/-- The retailer lexicon of extract_exclusivity, in Python dict insertion
order. -/
def retailers : List (String × String) :=
  [("hot topic", "Hot Topic"), ("gamestop", "GameStop"), ("target", "Target"),
   ("walmart", "Walmart"), ("amazon", "Amazon"), ("barnes & noble", "Barnes & Noble"),
   ("barnes and noble", "Barnes & Noble"), ("boxlunch", "BoxLunch"),
   ("funko shop", "Funko Shop"), ("entertainment earth", "Entertainment Earth"),
   ("anime of the year", "Anime of the Year"), ("supreme", "Supreme")]

/-- The retailer scan loop at the end of extract_exclusivity. -/
def retailersLoop (t : String) : List (String × String) → Option String
  | [] => none
  | (p, lb) :: rest => if strInfix p t then some lb else retailersLoop t rest

/-- The body of extract_exclusivity as a function of the search string:
the exact chain of substring tests of the source, in source order. -/
def exclusivityFromText (t : String) : Option String :=
  if strInfix "sdcc" t || strInfix "san diego comic con" t then
    if strInfix "shared" t then some "SDCC Shared" else some "SDCC Exclusive"
  else if strInfix "nycc" t || strInfix "new york comic con" t then
    if strInfix "shared" t then some "NYCC Shared" else some "NYCC Exclusive"
  else if strInfix "eccc" t || strInfix "emerald city comic con" t then
    if strInfix "shared" t then some "ECCC Shared" else some "ECCC Exclusive"
  else if strInfix "anime expo" t || strInfix " ax " t then
    if strInfix "shared" t then some "Anime Expo Shared" else some "Anime Expo Exclusive"
  else if strInfix "ccxp" t then
    if strInfix "shared" t then some "CCXP Shared" else some "CCXP Exclusive"
  else if strInfix "limited edition supreme" t then some "Limited Edition Supreme"
  else if strInfix "limited edition" t then some "Limited Edition"
  else retailersLoop t retailers

/-- extract_exclusivity. -/
def extract_exclusivity (item : Item) : Option String :=
  exclusivityFromText (exclSearchText item)

/-- The autograph keyword list of is_autographed. -/
def autographKeywords : List String :=
  ["autographed", "autograph", "signed", "signed by", "signature",
   "certified autograph", "coa"]

/-- The lowercase search string of is_autographed:
f-string of name, description, slug, image_url. -/
def autographSearchText (item : Item) : String :=
  pyLower item.name ++ " " ++ pyLower item.description ++ " " ++
    pyLower item.slug ++ " " ++ pyLower item.image_url

/-- is_autographed. -/
def is_autographed (item : Item) : Bool :=
  autographKeywords.any (fun k => strInfix k (autographSearchText item))

/-- Whitespace in the sense of the regex class backslash-s over ASCII text
(the search string is already lowercased ASCII-style). -/
def isWsChar (c : Char) : Bool :=
  c = ' ' || c = '\t' || c = '\n' || c = '\x0b' || c = '\x0c' || c = '\r'

/-- The characters excluded from the signer capture group. -/
def isCapDelim (c : Char) : Bool :=
  c = ',' || c = '(' || c = ')'

/-- Tail of the signer regexes after the leading literal: one or more
whitespace characters, the literal by, one or more whitespace characters,
then a greedy nonempty capture of characters other than comma and
parentheses.  A whitespace run before the capture can give up its final
character to the capture when nothing else is available (regex backtracking). -/
def matchTail (s : List Char) : Option (List Char) :=
  let w1 := s.takeWhile isWsChar
  let s1 := s.dropWhile isWsChar
  if w1.length = 0 then none
  else if s1.take 2 = ['b', 'y'] then
    let s2 := s1.drop 2
    let w2 := s2.takeWhile isWsChar
    let s3 := s2.dropWhile isWsChar
    if w2.length = 0 then none
    else
      let cap := s3.takeWhile (fun c => !(isCapDelim c))
      if cap.length ≠ 0 then some cap
      else if 2 ≤ w2.length then some (w2.drop (w2.length - 1))
      else none
  else none

/-- re.search for a signer pattern: the leftmost position where the leading
literal occurs followed by a full tail match, returning the capture group. -/
def searchPat (lit : List Char) : List Char → Option (List Char)
  | [] => none
  | c :: rest =>
    if (c :: rest).take lit.length = lit then
      match matchTail ((c :: rest).drop lit.length) with
      | some cap => some cap
      | none => searchPat lit rest
    else searchPat lit rest

/-- Python str.strip(): remove leading and trailing whitespace. -/
def pyStrip (s : List Char) : List Char :=
  ((s.dropWhile isWsChar).reverse.dropWhile isWsChar).reverse

/-- One step of Python str.title(): a letter is uppercased when the previous
character is not a letter and lowercased otherwise. -/
def pyTitleAux : Bool → List Char → List Char
  | _, [] => []
  | prevAlpha, c :: cs =>
    (if c.isAlpha then (if prevAlpha then c.toLower else c.toUpper) else c) ::
      pyTitleAux c.isAlpha cs

/-- Python str.title() over ASCII text. -/
def pyTitle (s : List Char) : List Char :=
  pyTitleAux false s

/-- The lowercase search string of extract_signer_name:
f-string of the raw name and description, then lowered. -/
def signerSearchText (item : Item) : String :=
  pyLower (item.name ++ " " ++ item.description)

/-- The leading literals of the three signer regexes, in source order. -/
def signerLits : List String :=
  ["signed", "autographed", "autograph"]

/-- The pattern loop of extract_signer_name: on a match, strip the capture
and return its title-case when it is truthy and longer than two characters,
otherwise continue with the following pattern. -/
def signerLoop (t : List Char) : List String → Option String
  | [] => none
  | lit :: rest =>
    match searchPat lit.data t with
    | some cap =>
      let s := String.mk (pyStrip cap)
      if s ≠ "" ∧ 2 < s.length then some (String.mk (pyTitle s.data))
      else signerLoop t rest
    | none => signerLoop t rest

/-- extract_signer_name. -/
def extract_signer_name (item : Item) : Option String :=
  if !(is_autographed item) then none
  else signerLoop (signerSearchText item).data signerLits

/-- process_item: build one CSV row from an item and the optional hdbid of
the master variant it was fetched under; now stands for the timestamp the
source takes from the clock. -/
def process_item (item : Item) (master_hdbid : Option String) (now : String) : Row :=
  let hdbid := hdbidOf item
  let is_master : Bool :=
    match master_hdbid with
    | none => true
    | some _ =>
      match extract_master_variant_info item with
      | none => true
      | some mid => mid == hdbid
  let stickers := extract_stickers item
  let exclusivity := extract_exclusivity item
  let autographed := is_autographed item
  let signer := if autographed then extract_signer_name item else none
  { hdbid := hdbid
    name := item.name
    number := item.number
    series := item.series
    image_url := item.image_url
    description := item.description
    category := item.category
    brand := item.brand
    upc := item.upc
    release_date := item.release_date
    prod_status := item.prod_status
    estimated_value := item.estimated_value
    estimated_value_currency := item.estimated_value_currency
    slug := item.slug
    ref_number := item.ref_number
    scale := item.scale
    aka := item.aka
    catalog_item_type_name := item.catalog_item_type_name
    scraped_date := now
    is_master_variant := if is_master then "1" else "0"
    master_variant_hdbid := if !is_master then pyOr master_hdbid hdbid else ""
    variant_type := if is_master then "master" else "subvariant"
    stickers := String.intercalate "|" stickers
    exclusivity := exclusivity.getD ""
    is_autographed := if autographed then "1" else "0"
    signed_by := signer.getD ""
    features := String.intercalate "|" stickers }

/-- BATCH_SIZE. -/
def BATCH_SIZE : Nat := 50

/-- STOP_AFTER_MATCHES. -/
def STOP_AFTER_MATCHES : Nat := 50

/-- The remote service: page o is the list of items the catalog endpoint
returns for offset o (the sequence of successful fetches; a failed fetch only
repeats the same offset after a sleep), and subs h is what the subvariant
endpoint returns for hdbid h (already the empty list on any error, as in
fetch_subvariants). -/
structure World where
  page : Nat → List Item
  subs : String → List Item

/-- get_existing_hdbids: the hdbid column of the persisted rows, keeping the
truthy values (the CSV store is modelled as the list of rows written so far,
and the Python set as this list with its membership relation). -/
def get_existing_hdbids (rows : List Row) : List String :=
  (rows.map Row.hdbid).filter (fun s => s != "")

/-- The in-memory state the page loop of main threads through item
processing: existing_hdbids, consecutive_matches, new_rows, total_new. -/
structure Scan where
  existing : List String
  consecutive : Nat
  rows : List Row
  totalNew : Nat
deriving DecidableEq

/-- The subvariant loop of main: a subvariant with a truthy, unseen
identifier is normalized under the given master hdbid, appended to new_rows,
and marked seen; all others are skipped. -/
def processSubs (master now : String) : List Item → Scan → Scan
  | [], st => st
  | sv :: rest, st =>
    let sid := hdbidOf sv
    if sid ≠ "" ∧ sid ∉ st.existing then
      processSubs master now rest
        { st with
          rows := st.rows ++ [process_item sv (some master) now],
          existing := sid :: st.existing,
          totalNew := st.totalNew + 1 }
    else
      processSubs master now rest st

/-- The per-item tail of the loop body of main, lines 467 to 488: append the
master row for the item, then run the subvariant loop on the response of the
subvariant endpoint. -/
def appendItemSubs (w : World) (now : String) (item : Item) (hdbid : String)
    (st : Scan) : Scan :=
  processSubs hdbid now (w.subs hdbid)
    { st with rows := st.rows ++ [process_item item none now] }

/-- The page item loop of main, lines 442 to 488.  The boolean is true when
the loop broke out on the consecutive match threshold.  An item with a falsy
identifier is skipped.  A seen identifier increments consecutive_matches and
breaks before producing anything once the threshold is reached; otherwise the
loop falls through to appendItemSubs exactly as in the source, so the row is
appended whether or not the identifier was already seen.  A new identifier
resets the counter, is marked seen, and counts in total_new. -/
def processItems (w : World) (now : String) : List Item → Scan → Scan × Bool
  | [], st => (st, false)
  | item :: rest, st =>
    let hdbid := hdbidOf item
    if hdbid = "" then processItems w now rest st
    else if hdbid ∈ st.existing then
      let st1 := { st with consecutive := st.consecutive + 1 }
      if STOP_AFTER_MATCHES ≤ st1.consecutive then (st1, true)
      else processItems w now rest (appendItemSubs w now item hdbid st1)
    else
      processItems w now rest (appendItemSubs w now item hdbid
        { st with
          consecutive := 0,
          existing := hdbid :: st.existing,
          totalNew := st.totalNew + 1 })

/-- The number of raw page items the loop of processItems iterates over
before returning; the item on which the stop threshold fires is counted, and
subvariants are not.  This mirrors processItems step for step. -/
def consumedItems (w : World) (now : String) : List Item → Scan → Nat
  | [], _ => 0
  | item :: rest, st =>
    let hdbid := hdbidOf item
    if hdbid = "" then 1 + consumedItems w now rest st
    else if hdbid ∈ st.existing then
      let st1 := { st with consecutive := st.consecutive + 1 }
      if STOP_AFTER_MATCHES ≤ st1.consecutive then 1
      else 1 + consumedItems w now rest (appendItemSubs w now item hdbid st1)
    else
      1 + consumedItems w now rest (appendItemSubs w now item hdbid
        { st with
          consecutive := 0,
          existing := hdbid :: st.existing,
          totalNew := st.totalNew + 1 })

/-- The whole-run state of main: the persisted CSV row list, the cursor
fields of the progress record, and the in-memory loop variables. -/
structure RunState where
  csv : List Row
  offset : Nat
  totalScraped : Nat
  existing : List String
  consecutive : Nat
  totalNew : Nat
deriving DecidableEq

/-- The Scan seeding a page: new_rows starts empty each page. -/
def scanOf (rs : RunState) : Scan :=
  { existing := rs.existing, consecutive := rs.consecutive, rows := [],
    totalNew := rs.totalNew }

/-- One iteration of the while loop of main on a fetched page: run the item
loop, append new_rows to the CSV, advance the offset and total_scraped by the
length of the page, and persist the progress record. -/
def pageStep (w : World) (now : String) (rs : RunState) (items : List Item) :
    RunState :=
  let r := processItems w now items (scanOf rs)
  { csv := rs.csv ++ r.1.rows
    offset := rs.offset + items.length
    totalScraped := rs.totalScraped + items.length
    existing := r.1.existing
    consecutive := r.1.consecutive
    totalNew := r.1.totalNew }

/-- The while loop of main, fuelled: an empty page ends the run, and after a
page the run ends when consecutive_matches has reached STOP_AFTER_MATCHES.
The loop state (existing_hdbids and consecutive_matches among it) flows from
one page to the next unchanged apart from what processItems itself did. -/
def runLoop (w : World) (now : String) : Nat → RunState → RunState
  | 0, rs => rs
  | Nat.succ fuel, rs =>
    let items := w.page rs.offset
    if items = [] then rs
    else
      let rs1 := pageStep w now rs items
      if STOP_AFTER_MATCHES ≤ rs1.consecutive then rs1
      else runLoop w now fuel rs1

/-- One invocation of main: resume the cursor from the progress record,
rebuild the dedup index from the persisted rows, start the match counter at
zero, and run the page loop. -/
def runScraper (w : World) (now : String) (fuel : Nat) (csv0 : List Row)
    (offset0 total0 : Nat) : RunState :=
  runLoop w now fuel
    { csv := csv0, offset := offset0, totalScraped := total0,
      existing := get_existing_hdbids csv0, consecutive := 0, totalNew := 0 }

/-!
Spec-side rule tables.  The definitions below follow the wording of the
specification, to be compared with the source translations above: an ordered
rule table evaluated first-match-wins for exclusivity, and the spec reading
of signer extraction and of master classification.
-/

/-- Modelled from the spec: a convention rule yields Event Shared when the
text also contains shared and Event Exclusive otherwise. -/
def convRule (kws : List String) (ev t : String) : Option String :=
  if kws.any (fun k => strInfix k t) then
    some (if strInfix "shared" t then ev ++ " Shared" else ev ++ " Exclusive")
  else none

/-- Modelled from the spec: a plain substring rule yielding a literal label. -/
def litRule (p lb t : String) : Option String :=
  if strInfix p t then some lb else none

/-- First defined value of an ordered list of rule outcomes. -/
def firstSome : List (Option String) → Option String
  | [] => none
  | some v :: _ => some v
  | none :: rest => firstSome rest

/-- Modelled from the spec: the fixed ordered exclusivity rule table,
conventions first, then the two limited-edition literals, then the retailer
lexicon. -/
def ruleTable (t : String) : List (Option String) :=
  [convRule ["sdcc", "san diego comic con"] "SDCC" t,
   convRule ["nycc", "new york comic con"] "NYCC" t,
   convRule ["eccc", "emerald city comic con"] "ECCC" t,
   convRule ["anime expo", " ax "] "Anime Expo" t,
   convRule ["ccxp"] "CCXP" t,
   litRule "limited edition supreme" "Limited Edition Supreme" t,
   litRule "limited edition" "Limited Edition" t,
   litRule "hot topic" "Hot Topic" t,
   litRule "gamestop" "GameStop" t,
   litRule "target" "Target" t,
   litRule "walmart" "Walmart" t,
   litRule "amazon" "Amazon" t,
   litRule "barnes & noble" "Barnes & Noble" t,
   litRule "barnes and noble" "Barnes & Noble" t,
   litRule "boxlunch" "BoxLunch" t,
   litRule "funko shop" "Funko Shop" t,
   litRule "entertainment earth" "Entertainment Earth" t,
   litRule "anime of the year" "Anime of the Year" t,
   litRule "supreme" "Supreme" t]

/-- Modelled from the spec: exclusivity as first-match-wins over the ordered
rule table, absent when no rule matches. -/
def specExclusivity (t : String) : Option String :=
  firstSome (ruleTable t)

/-- The signer candidate a single pattern yields when its trimmed capture is
longer than two characters. -/
def signerCandidate (t : List Char) (lit : String) : Option String :=
  match searchPat lit.data t with
  | some cap =>
    let s := String.mk (pyStrip cap)
    if 2 < s.length then some (String.mk (pyTitle s.data)) else none
  | none => none

/-- Signer extraction as the first pattern, in order, whose trimmed capture
is longer than two characters (the amended reading of the spec sentence). -/
def signerSpec (t : List Char) : List String → Option String
  | [] => none
  | lit :: rest =>
    match signerCandidate t lit with
    | some v => some v
    | none => signerSpec t rest

/-- The capture of the first pattern, in order, that matches at all. -/
def firstPatMatch (t : List Char) : List String → Option (List Char)
  | [] => none
  | lit :: rest =>
    match searchPat lit.data t with
    | some cap => some cap
    | none => firstPatMatch t rest

/-- Modelled from the spec sentence of claim C9, as stated: the FIRST pattern
that matches wins, and when its trimmed capture is not longer than two
characters the signer is absent (later patterns are not consulted). -/
def claimSignerC9 (item : Item) : Option String :=
  if !(is_autographed item) then none
  else
    match firstPatMatch (signerSearchText item).data signerLits with
    | some cap =>
      let s := String.mk (pyStrip cap)
      if 2 < s.length then some (String.mk (pyTitle s.data)) else none
    | none => none

/-- Modelled from the spec sentence of claim C6, as stated: a record is a
master exactly when it carries no master-reference or that reference equals
its own identifier, independently of the caller-supplied argument. -/
def claimC6IsMaster (item : Item) : Prop :=
  extract_master_variant_info item = none ∨
    extract_master_variant_info item = some (hdbidOf item)

instance (item : Item) : Decidable (claimC6IsMaster item) := by
  unfold claimC6IsMaster
  infer_instance

/-!
Concrete inputs for the witnesses and counterexamples.
-/

/-- An item carrying only an identifier. -/
def mkItem (s : String) : Item :=
  { id := some s }

/-- A world with no catalog pages and no subvariants. -/
def emptyWorld : World :=
  { page := fun _ => [], subs := fun _ => [] }

/-- World for claim C1: the first page repeats the same raw item, later
pages are empty. -/
def worldC1 : World :=
  { page := fun o => if o = 0 then [mkItem "7", mkItem "7"] else [],
    subs := fun _ => [] }

/-- World for run one of claim C2: item 7 is the single newest item. -/
def worldC2a : World :=
  { page := fun o => if o = 0 then [mkItem "7"] else [],
    subs := fun _ => [] }

/-- World for run two of claim C2: a newer item was prepended upstream, so
item 7 now sits at offset 1, where the resumed cursor of run two lands. -/
def worldC2b : World :=
  { page := fun o => if o = 1 then [mkItem "7"] else [],
    subs := fun _ => [] }

/-- Persisted store for claim C3: fifty rows with identifiers 1 to 50. -/
def csvC3 : List Row :=
  (List.range 50).map (fun i => process_item (mkItem (Nat.repr (i + 1))) none "t0")

/-- World for claim C3: the first page holds 49 already-stored items, the
page at offset 49 starts with another already-stored item, so the stop
threshold fires on its first item. -/
def worldC3 : World :=
  { page := fun o =>
      if o = 0 then (List.range 49).map (fun i => mkItem (Nat.repr (i + 1)))
      else if o = 49 then [mkItem "1", mkItem "60", mkItem "61"]
      else [],
    subs := fun _ => [] }

/-- Item for the Golden Freddy sticker example of claim C7. -/
def goldenFreddyItem : Item :=
  { name := "Golden Freddy" }

/-- Item whose text mentions gold before chase, for the lexicon-order part of
claim C7. -/
def goldChaseItem : Item :=
  { name := "Gold Chase" }

/-- Item for the NYCC Shared exclusivity example of claim C8. -/
def nyccItem : Item :=
  { name := "NYCC Batman", description := "Shared with NYCC" }

/-- Item for the Tom Hanks signer example of claim C9. -/
def tomHanksItem : Item :=
  { description := "Signed by Tom Hanks, limited run" }

/-- Item for the counterexample of claim C9: the first pattern matches with a
two-character capture, the second pattern then still yields a signer. -/
def shortSignerItem : Item :=
  { description := "Signed by Jo, autographed by Tom Hanks" }

/-- Item for the counterexample of claim C6: it embeds a master reference
different from its own identifier. -/
def foreignMasterItem : Item :=
  { id := some "123", master_id := some "999" }

/-- Item for the Diamond Select suppression example. -/
def diamondSelectItem : Item :=
  { name := "Diamond Select Batman" }

/-- A scan state one match short of the stop threshold. -/
def seenScan : Scan :=
  { existing := ["9"], consecutive := 49, rows := [], totalNew := 0 }

/-- A world whose only page holds one already-seen item. -/
def oneSeenWorld : World :=
  { page := fun o => if o = 0 then [mkItem "9"] else [], subs := fun _ => [] }

/-- A run state one match short of the stop threshold. -/
def seenRun : RunState :=
  { csv := [], offset := 0, totalScraped := 0, existing := ["9"],
    consecutive := 49, totalNew := 0 }

/-- A pristine run state. -/
def freshRun : RunState :=
  { csv := [], offset := 0, totalScraped := 0, existing := [],
    consecutive := 0, totalNew := 0 }

/-- A world whose only page holds one fresh item. -/
def oneItemWorld : World :=
  { page := fun o => if o = 0 then [mkItem "5"] else [], subs := fun _ => [] }

/-- The starting state of the claim C3 run: resumed at offset 0 with the 50
stored identifiers rebuilt into the dedup index. -/
def rsC3start : RunState :=
  { csv := csvC3, offset := 0, totalScraped := 0,
    existing := get_existing_hdbids csvC3, consecutive := 0, totalNew := 0 }

/-- The claim C3 run after its first page: 49 consecutive matches carried
into the next page. -/
def rsC3mid : RunState :=
  runLoop worldC3 "t" 1 rsC3start

/-!
Shared lemmas about the embedding.
-/

/-- strInfix is the list infix relation on the underlying characters. -/
theorem strInfix_iff (pat s : String) : strInfix pat s = true ↔ pat.data <:+: s.data := by
  simp [strInfix]

/-- The subvariant loop never touches consecutive_matches. -/
theorem processSubs_consecutive (master now : String) :
    ∀ (svs : List Item) (st : Scan),
      (processSubs master now svs st).consecutive = st.consecutive
  | [], _ => rfl
  | sv :: rest, st => by
    simp only [processSubs]
    split
    · rw [processSubs_consecutive master now rest]
    · exact processSubs_consecutive master now rest st

/-- The subvariant loop only grows the seen set. -/
theorem processSubs_existing_mono (master now s : String) :
    ∀ (svs : List Item) (st : Scan),
      s ∈ st.existing → s ∈ (processSubs master now svs st).existing
  | [], _, h => h
  | sv :: rest, st, h => by
    simp only [processSubs]
    split
    · exact processSubs_existing_mono master now s rest _ (List.mem_cons_of_mem _ h)
    · exact processSubs_existing_mono master now s rest _ h

/-- Appending an item row and its subvariants never touches
consecutive_matches. -/
theorem appendItemSubs_consecutive (w : World) (now : String) (item : Item)
    (hdbid : String) (st : Scan) :
    (appendItemSubs w now item hdbid st).consecutive = st.consecutive := by
  unfold appendItemSubs
  rw [processSubs_consecutive]

/-- Appending an item row and its subvariants only grows the seen set. -/
theorem appendItemSubs_existing_mono (w : World) (now : String) (item : Item)
    (hdbid s : String) (st : Scan) (h : s ∈ st.existing) :
    s ∈ (appendItemSubs w now item hdbid st).existing := by
  unfold appendItemSubs
  exact processSubs_existing_mono hdbid now s _ _ h

/-- The sticker scan appends labels in lexicon scan order: its result is a
sublist of the accumulator followed by the lexicon labels in order. -/
theorem stickersLoop_sublist (t : String) :
    ∀ (lex : List (String × String)) (acc : List String),
      stickersLoop t lex acc <+ acc ++ lex.map Prod.snd
  | [], acc => by simp [stickersLoop]
  | (kw, lb) :: rest, acc => by
    simp only [stickersLoop, List.map_cons]
    split
    · have h := stickersLoop_sublist t rest (acc ++ [lb])
      rw [List.append_assoc] at h
      simpa using h
    · exact (stickersLoop_sublist t rest acc).trans
        ((List.append_sublist_append_left acc).mpr (List.sublist_cons_self lb _))

/-- The sticker scan never introduces a duplicate label. -/
theorem stickersLoop_nodup (t : String) :
    ∀ (lex : List (String × String)) (acc : List String),
      acc.Nodup → (stickersLoop t lex acc).Nodup
  | [], acc, h => by simpa [stickersLoop] using h
  | (kw, lb) :: rest, acc, h => by
    simp only [stickersLoop]
    split
    · next hc =>
      refine stickersLoop_nodup t rest _ ?_
      have hnm : lb ∉ acc := hc.2.1
      simp [List.nodup_append, h, hnm]
    · exact stickersLoop_nodup t rest acc h

/-- A label whose every lexicon entry is suppressed or absent from the text
never enters the sticker list. -/
theorem stickersLoop_not_mem (t lb : String) :
    ∀ (lex : List (String × String)) (acc : List String),
      lb ∉ acc →
      (∀ p ∈ lex, p.2 = lb → ¬ (strInfix p.1 t ∧ ¬ stickerSkip p.1 t)) →
      lb ∉ stickersLoop t lex acc
  | [], acc, hacc, _ => by simpa [stickersLoop] using hacc
  | (kw, l) :: rest, acc, hacc, hlex => by
    simp only [stickersLoop]
    split
    · next hc =>
      have hlne : l ≠ lb := by
        intro he
        exact hlex (kw, l) (List.mem_cons_self _ _) he ⟨hc.1, hc.2.2⟩
      refine stickersLoop_not_mem t lb rest _ ?_ ?_
      · simp [hacc, Ne.symm hlne]
      · exact fun p hp => hlex p (List.mem_cons_of_mem _ hp)
    · exact stickersLoop_not_mem t lb rest acc hacc
        (fun p hp => hlex p (List.mem_cons_of_mem _ hp))

/-- firstSome over a rule that is a guarded value. -/
theorem firstSome_iteCons (c : Prop) [Decidable c] (v : String)
    (rest : List (Option String)) :
    firstSome ((if c then some v else none) :: rest) =
      if c then some v else firstSome rest := by
  by_cases h : c <;> simp [h, firstSome]

/-- firstSome of a table of empty outcomes is empty. -/
theorem firstSome_eq_none :
    ∀ l : List (Option String), (∀ r ∈ l, r = none) → firstSome l = none
  | [], _ => rfl
  | r :: rest, h => by
    have hr := h r (List.mem_cons_self _ _)
    subst hr
    simpa [firstSome] using firstSome_eq_none rest (fun x hx => h x (List.mem_cons_of_mem _ hx))

/-- The source exclusivity chain equals the spec rule table evaluated
first-match-wins. -/
theorem exclusivityFromText_eq_spec (t : String) :
    exclusivityFromText t = specExclusivity t := by
  unfold exclusivityFromText specExclusivity ruleTable convRule litRule
  simp only [retailers, retailersLoop, List.any_cons, List.any_nil, Bool.or_false]
  by_cases h1 : (strInfix "sdcc" t || strInfix "san diego comic con" t) = true
  · simp only [if_pos h1, firstSome]
    rw [apply_ite Option.some]
    rfl
  simp only [if_neg h1, firstSome]
  by_cases h2 : (strInfix "nycc" t || strInfix "new york comic con" t) = true
  · simp only [if_pos h2, firstSome]
    rw [apply_ite Option.some]
    rfl
  simp only [if_neg h2, firstSome]
  by_cases h3 : (strInfix "eccc" t || strInfix "emerald city comic con" t) = true
  · simp only [if_pos h3, firstSome]
    rw [apply_ite Option.some]
    rfl
  simp only [if_neg h3, firstSome]
  by_cases h4 : (strInfix "anime expo" t || strInfix " ax " t) = true
  · simp only [if_pos h4, firstSome]
    rw [apply_ite Option.some]
    rfl
  simp only [if_neg h4, firstSome]
  by_cases h5 : strInfix "ccxp" t = true
  · simp only [if_pos h5, firstSome]
    rw [apply_ite Option.some]
    rfl
  simp only [if_neg h5, firstSome]
  by_cases h6 : strInfix "limited edition supreme" t = true
  · simp only [if_pos h6, firstSome]
  simp only [if_neg h6, firstSome]
  by_cases h7 : strInfix "limited edition" t = true
  · simp only [if_pos h7, firstSome]
  simp only [if_neg h7, firstSome]
  by_cases h8 : strInfix "hot topic" t = true
  · simp only [if_pos h8, firstSome]
  simp only [if_neg h8, firstSome]
  by_cases h9 : strInfix "gamestop" t = true
  · simp only [if_pos h9, firstSome]
  simp only [if_neg h9, firstSome]
  by_cases h10 : strInfix "target" t = true
  · simp only [if_pos h10, firstSome]
  simp only [if_neg h10, firstSome]
  by_cases h11 : strInfix "walmart" t = true
  · simp only [if_pos h11, firstSome]
  simp only [if_neg h11, firstSome]
  by_cases h12 : strInfix "amazon" t = true
  · simp only [if_pos h12, firstSome]
  simp only [if_neg h12, firstSome]
  by_cases h13 : strInfix "barnes & noble" t = true
  · simp only [if_pos h13, firstSome]
  simp only [if_neg h13, firstSome]
  by_cases h14 : strInfix "barnes and noble" t = true
  · simp only [if_pos h14, firstSome]
  simp only [if_neg h14, firstSome]
  by_cases h15 : strInfix "boxlunch" t = true
  · simp only [if_pos h15, firstSome]
  simp only [if_neg h15, firstSome]
  by_cases h16 : strInfix "funko shop" t = true
  · simp only [if_pos h16, firstSome]
  simp only [if_neg h16, firstSome]
  by_cases h17 : strInfix "entertainment earth" t = true
  · simp only [if_pos h17, firstSome]
  simp only [if_neg h17, firstSome]
  by_cases h18 : strInfix "anime of the year" t = true
  · simp only [if_pos h18, firstSome]
  simp only [if_neg h18, firstSome]
  by_cases h19 : strInfix "supreme" t = true
  · simp only [if_pos h19, firstSome]
  simp only [if_neg h19, firstSome]

/-- The signer pattern loop equals its spec reading: the first pattern whose
trimmed capture is longer than two characters wins (the truthiness test of
the source is subsumed by the length test). -/
theorem signerLoop_eq_spec (t : List Char) :
    ∀ lits : List String, signerLoop t lits = signerSpec t lits
  | [] => rfl
  | lit :: rest => by
    simp only [signerLoop, signerSpec, signerCandidate]
    cases hsp : searchPat lit.data t with
    | none => exact signerLoop_eq_spec t rest
    | some cap =>
      dsimp only
      by_cases h2 : 2 < (String.mk (pyStrip cap)).length
      · have hne : String.mk (pyStrip cap) ≠ "" := by
          intro he
          rw [he] at h2
          exact absurd h2 (by decide)
        rw [if_pos ⟨hne, h2⟩, if_pos h2]
      · rw [if_neg (fun hc => h2 hc.2), if_neg h2]
        exact signerLoop_eq_spec t rest

/-!
Claim theorems.
-/

/-- Claim C5: for every row produced by normalization (with the master
argument absent or a nonempty hdbid, the only two shapes the orchestrator
passes), is_master_variant is 1 exactly when variant_type is master, and
master_variant_hdbid is nonempty exactly when variant_type is subvariant. -/
theorem c5_variant_flags_consistent (item : Item) (masterArg : Option String)
    (now : String) (h : ∀ s, masterArg = some s → s ≠ "") :
    ((process_item item masterArg now).is_master_variant = "1" ↔
      (process_item item masterArg now).variant_type = "master") ∧
    ((process_item item masterArg now).master_variant_hdbid ≠ "" ↔
      (process_item item masterArg now).variant_type = "subvariant") := by
  cases masterArg with
  | none =>
    simp [process_item]
  | some m =>
    have hm : m ≠ "" := h m rfl
    cases hmi : extract_master_variant_info item with
    | none =>
      simp [process_item, hmi]
    | some mid =>
      by_cases hb : (mid == hdbidOf item) = true
      · simp [process_item, hmi, hb]
      · have hb' : (mid == hdbidOf item) = false := by
          cases hmid : (mid == hdbidOf item)
          · rfl
          · exact absurd hmid hb
        simp [process_item, hmi, hb', pyOr, hm]

/-- Claim C5 witness: the subvariant call shape at a concrete item. -/
theorem c5_variant_flags_consistent_witness :
    ((process_item (mkItem "3") (some "5") "t").is_master_variant = "1" ↔
      (process_item (mkItem "3") (some "5") "t").variant_type = "master") ∧
    ((process_item (mkItem "3") (some "5") "t").master_variant_hdbid ≠ "" ↔
      (process_item (mkItem "3") (some "5") "t").variant_type = "subvariant") :=
  c5_variant_flags_consistent (mkItem "3") (some "5") "t"
    (fun s hs => by injection hs with hsv; exact hsv ▸ (by decide : ("5" : String) ≠ ""))

/-- Claim C6 counterexample: an item embedding a master reference 999
different from its own identifier 123 is nevertheless classified master when
the caller supplies no master identifier, against the claimed rule that
master-ness is decided by the record alone. -/
theorem c6_counterexample :
    (process_item foreignMasterItem none "t").variant_type = "master" ∧
    extract_master_variant_info foreignMasterItem = some "999" ∧
    hdbidOf foreignMasterItem = "123" ∧
    ¬ claimC6IsMaster foreignMasterItem := by
  refine ⟨rfl, rfl, rfl, ?_⟩
  decide

/-- Claim C6 amended: with no caller-supplied master identifier the record is
always classified master; with one supplied, the record is master exactly
when it carries no usable master reference or that reference equals its own
identifier, and otherwise it is a subvariant owned by the caller-supplied
identifier, the embedded reference never overriding it. -/
theorem c6_master_classification (item : Item) (m now : String) :
    (process_item item none now).variant_type = "master" ∧
    ((process_item item (some m) now).variant_type = "master" ↔
      claimC6IsMaster item) ∧
    (m ≠ "" → ¬ claimC6IsMaster item →
      (process_item item (some m) now).variant_type = "subvariant" ∧
      (process_item item (some m) now).master_variant_hdbid = m) := by
  refine ⟨rfl, ?_, ?_⟩
  · cases hmi : extract_master_variant_info item with
    | none => simp [process_item, hmi, claimC6IsMaster]
    | some mid =>
      by_cases hb : (mid == hdbidOf item) = true
      · have : mid = hdbidOf item := by simpa using hb
        simp [process_item, hmi, hb, claimC6IsMaster, this]
      · have hb' : (mid == hdbidOf item) = false := by
          cases hmid : (mid == hdbidOf item)
          · rfl
          · exact absurd hmid hb
        have hne : mid ≠ hdbidOf item := by simpa using hb'
        simp [process_item, hmi, hb', claimC6IsMaster, hne]
  · intro hm hnc
    cases hmi : extract_master_variant_info item with
    | none => exact absurd (Or.inl hmi) hnc
    | some mid =>
      have hne : mid ≠ hdbidOf item := by
        intro he
        exact hnc (Or.inr (he ▸ hmi))
      have hb' : (mid == hdbidOf item) = false := by
        simpa using hne
      constructor
      · simp [process_item, hmi, hb']
      · simp [process_item, hmi, hb', pyOr, hm]

/-- Claim C6 witness: the amended classification evaluated at the concrete
counterexample item with a concrete caller-supplied master identifier. -/
theorem c6_master_classification_witness :
    (process_item foreignMasterItem none "t").variant_type = "master" ∧
    ((process_item foreignMasterItem (some "77") "t").variant_type = "subvariant" ∧
      (process_item foreignMasterItem (some "77") "t").master_variant_hdbid = "77") :=
  ⟨(c6_master_classification foreignMasterItem "77" "t").1,
   (c6_master_classification foreignMasterItem "77" "t").2.2 (by decide) (by decide)⟩

/-- Claim C7: sticker extraction emits each label at most once, in lexicon
scan order (a sublist of the lexicon labels), suppresses Diamond when the
search string contains diamond select and Gold when it contains golden; a
record named Golden Freddy gets no sticker at all, and a record whose text
mentions gold before chase still lists Chase first. -/
theorem c7_sticker_extraction (item : Item) :
    extract_stickers item <+ featureLexicon.map Prod.snd ∧
    (extract_stickers item).Nodup ∧
    (strInfix "diamond select" (stickerSearchText item) = true →
      "Diamond" ∉ extract_stickers item) ∧
    (strInfix "golden" (stickerSearchText item) = true →
      "Gold" ∉ extract_stickers item) ∧
    extract_stickers goldenFreddyItem = [] ∧
    extract_stickers goldChaseItem = ["Chase", "Gold"] := by
  refine ⟨?_, ?_, ?_, ?_, by decide, by decide⟩
  · simpa [extract_stickers] using
      stickersLoop_sublist (stickerSearchText item) featureLexicon []
  · exact stickersLoop_nodup (stickerSearchText item) featureLexicon [] List.nodup_nil
  · intro hds
    refine stickersLoop_not_mem _ _ featureLexicon [] (by simp) ?_
    intro p hp hpl hcond
    simp only [featureLexicon, List.mem_cons, List.not_mem_nil, or_false] at hp
    rcases hp with rfl | rfl | rfl | rfl | rfl | rfl | rfl | rfl | rfl | rfl | rfl
    · exact absurd hpl (by decide)
    · exact absurd hpl (by decide)
    · exact absurd hpl (by decide)
    · exact absurd hpl (by decide)
    · exact absurd hpl (by decide)
    · exact absurd hpl (by decide)
    · exact absurd hpl (by decide)
    · exact hcond.2 (by simp [stickerSkip, hds])
    · exact absurd hpl (by decide)
    · exact absurd hpl (by decide)
    · exact absurd hpl (by decide)
  · intro hgn
    refine stickersLoop_not_mem _ _ featureLexicon [] (by simp) ?_
    intro p hp hpl hcond
    simp only [featureLexicon, List.mem_cons, List.not_mem_nil, or_false] at hp
    rcases hp with rfl | rfl | rfl | rfl | rfl | rfl | rfl | rfl | rfl | rfl | rfl
    · exact absurd hpl (by decide)
    · exact absurd hpl (by decide)
    · exact absurd hpl (by decide)
    · exact absurd hpl (by decide)
    · exact absurd hpl (by decide)
    · exact absurd hpl (by decide)
    · exact absurd hpl (by decide)
    · exact absurd hpl (by decide)
    · exact hcond.2 (by simp [stickerSkip, hgn])
    · exact absurd hpl (by decide)
    · exact absurd hpl (by decide)

/-- Claim C7 witness: the two suppression hypotheses discharged at the
Diamond Select and Golden Freddy items. -/
theorem c7_sticker_extraction_witness :
    "Diamond" ∉ extract_stickers diamondSelectItem ∧
    "Gold" ∉ extract_stickers goldenFreddyItem :=
  ⟨(c7_sticker_extraction diamondSelectItem).2.2.1 (by decide),
   (c7_sticker_extraction goldenFreddyItem).2.2.2.1 (by decide)⟩

/-- Claim C8: exclusivity extraction equals first-match-wins evaluation of
the fixed ordered rule table (conventions with their Shared variants first,
then the two limited-edition literals, then the retailer lexicon), it is
absent exactly when no rule matches, and the NYCC Shared example holds. -/
theorem c8_exclusivity_rule_order :
    (∀ item : Item, extract_exclusivity item = specExclusivity (exclSearchText item)) ∧
    (∀ t : String, (∀ r ∈ ruleTable t, r = none) → exclusivityFromText t = none) ∧
    extract_exclusivity nyccItem = some "NYCC Shared" := by
  refine ⟨?_, ?_, by decide⟩
  · intro item
    exact exclusivityFromText_eq_spec (exclSearchText item)
  · intro t h
    rw [exclusivityFromText_eq_spec]
    exact firstSome_eq_none (ruleTable t) h

/-- Claim C8 witness: a record matching no rule has no exclusivity. -/
theorem c8_exclusivity_rule_order_witness :
    extract_exclusivity (mkItem "1") = none ∧
    exclusivityFromText (exclSearchText (mkItem "1")) = none :=
  ⟨by decide,
   c8_exclusivity_rule_order.2.1 (exclSearchText (mkItem "1")) (by decide)⟩

/-- Claim C9 counterexample: on a description whose first pattern (signed by)
matches with the two-character capture jo, the source falls through to the
second pattern and returns Tom Hanks, while the claim as stated (the FIRST
matching pattern wins, absent if its capture is too short) yields no signer. -/
theorem c9_counterexample :
    extract_signer_name shortSignerItem = some "Tom Hanks" ∧
    claimSignerC9 shortSignerItem = none := by
  constructor
  · decide
  · decide

/-- Claim C9 amended: signer extraction, attempted only under autograph
detection, returns the title-cased trimmed capture of the first pattern
whose trimmed capture is longer than two characters, later patterns still
being tried when an earlier one matches too short; the Tom Hanks example
holds. -/
theorem c9_signer_first_qualifying :
    (∀ item : Item, extract_signer_name item =
      (if is_autographed item then
        signerSpec (signerSearchText item).data signerLits
      else none)) ∧
    is_autographed tomHanksItem = true ∧
    extract_signer_name tomHanksItem = some "Tom Hanks" := by
  refine ⟨?_, by decide, by decide⟩
  intro item
  unfold extract_signer_name
  cases ha : is_autographed item with
  | false => simp [ha]
  | true => simp [ha, signerLoop_eq_spec]

/-- Claim C10: an item with a falsy identifier is skipped entirely, both in
the page item loop and in the subvariant loop: processing continues on the
remaining items with the state (seen set, consecutive counter, rows, counts)
literally unchanged. -/
theorem c10_falsy_identifier_skipped :
    (∀ (w : World) (now : String) (st : Scan) (item : Item) (rest : List Item),
      hdbidOf item = "" →
      processItems w now (item :: rest) st = processItems w now rest st) ∧
    (∀ (master now : String) (st : Scan) (sv : Item) (rest : List Item),
      hdbidOf sv = "" →
      processSubs master now (sv :: rest) st = processSubs master now rest st) := by
  constructor
  · intro w now st item rest h
    simp only [processItems, h, if_pos]
  · intro master now st sv rest h
    simp only [processSubs, h]
    rw [if_neg (fun hc => hc.1 rfl)]

/-- Claim C10 witness: both skip equations at an item with no identifier. -/
theorem c10_falsy_identifier_skipped_witness :
    processItems emptyWorld "t" [{}] (Scan.mk [] 0 [] 0) =
      processItems emptyWorld "t" [] (Scan.mk [] 0 [] 0) ∧
    processSubs "m" "t" [{}] (Scan.mk [] 0 [] 0) =
      processSubs "m" "t" [] (Scan.mk [] 0 [] 0) :=
  ⟨c10_falsy_identifier_skipped.1 emptyWorld "t" (Scan.mk [] 0 [] 0) {} [] rfl,
   c10_falsy_identifier_skipped.2 "m" "t" (Scan.mk [] 0 [] 0) {} [] rfl⟩

/-- The no-new-identifier part of claim C4: when every item of a page is
falsy or already seen, the consecutive counter never decreases, so it is
reset only by encountering a new identifier. -/
theorem processItems_no_new_no_reset (w : World) (now : String) :
    ∀ (items : List Item) (st : Scan),
      (∀ it ∈ items, hdbidOf it = "" ∨ hdbidOf it ∈ st.existing) →
      st.consecutive ≤ (processItems w now items st).1.consecutive
  | [], _, _ => Nat.le_refl _
  | item :: rest, st, h => by
    have hitem := h item (List.mem_cons_self item rest)
    simp only [processItems]
    by_cases hbe : hdbidOf item = ""
    · rw [if_pos hbe]
      exact processItems_no_new_no_reset w now rest st
        (fun it hit => h it (List.mem_cons_of_mem _ hit))
    · have hm : hdbidOf item ∈ st.existing := hitem.resolve_left hbe
      rw [if_neg hbe, if_pos hm]
      by_cases hstop : STOP_AFTER_MATCHES ≤ st.consecutive + 1
      · rw [if_pos hstop]
        exact Nat.le_succ _
      · rw [if_neg hstop]
        have hle : st.consecutive + 1 ≤
            (processItems w now rest
              (appendItemSubs w now item (hdbidOf item)
                { st with consecutive := st.consecutive + 1 })).1.consecutive := by
          have hc := appendItemSubs_consecutive w now item (hdbidOf item)
            { st with consecutive := st.consecutive + 1 }
          calc st.consecutive + 1
              = (appendItemSubs w now item (hdbidOf item)
                  { st with consecutive := st.consecutive + 1 }).consecutive := by
                rw [hc]
            _ ≤ _ := by
                refine processItems_no_new_no_reset w now rest _ ?_
                intro it hit
                rcases h it (List.mem_cons_of_mem _ hit) with he | hmem
                · exact Or.inl he
                · exact Or.inr (appendItemSubs_existing_mono w now item
                    (hdbidOf item) (hdbidOf it) _ hmem)
        exact Nat.le_trans (Nat.le_succ _) hle

/-- Claim C4: reaching the consecutive match threshold of 50 halts page
iteration at once, before the triggering item or any later item of the page
produces anything; the outer loop then stops without fetching any later
page; and a page with no new identifier never resets the counter, which
flows between pages untouched. -/
theorem c4_threshold_halts :
    (∀ (w : World) (now : String) (st : Scan) (item : Item) (rest : List Item),
      hdbidOf item ≠ "" →
      hdbidOf item ∈ st.existing →
      STOP_AFTER_MATCHES ≤ st.consecutive + 1 →
      processItems w now (item :: rest) st =
        ({ st with consecutive := st.consecutive + 1 }, true)) ∧
    (∀ (w : World) (now : String) (fuel : Nat) (rs : RunState),
      w.page rs.offset ≠ [] →
      STOP_AFTER_MATCHES ≤ (pageStep w now rs (w.page rs.offset)).consecutive →
      runLoop w now (fuel + 1) rs = pageStep w now rs (w.page rs.offset)) ∧
    (∀ (w : World) (now : String) (items : List Item) (st : Scan),
      (∀ it ∈ items, hdbidOf it = "" ∨ hdbidOf it ∈ st.existing) →
      st.consecutive ≤ (processItems w now items st).1.consecutive) := by
  refine ⟨?_, ?_, ?_⟩
  · intro w now st item rest h1 h2 h3
    simp only [processItems]
    rw [if_neg h1, if_pos h2, if_pos h3]
  · intro w now fuel rs h1 h2
    simp only [runLoop]
    rw [if_neg h1, if_pos h2]
  · exact fun w now items st h => processItems_no_new_no_reset w now items st h

/-- Claim C4 witness: the three parts at a state holding 49 consecutive
matches when the fiftieth arrives. -/
theorem c4_threshold_halts_witness :
    processItems oneSeenWorld "t" [mkItem "9"] seenScan =
      ({ seenScan with consecutive := seenScan.consecutive + 1 }, true) ∧
    runLoop oneSeenWorld "t" 1 seenRun =
      pageStep oneSeenWorld "t" seenRun (oneSeenWorld.page seenRun.offset) ∧
    seenScan.consecutive ≤
      (processItems oneSeenWorld "t" [mkItem "9"] seenScan).1.consecutive :=
  ⟨c4_threshold_halts.1 oneSeenWorld "t" seenScan (mkItem "9") []
      (by decide) (by decide) (by decide),
   c4_threshold_halts.2.1 oneSeenWorld "t" 0 seenRun (by decide) (by decide),
   c4_threshold_halts.2.2 oneSeenWorld "t" [mkItem "9"] seenScan (by decide)⟩

/-- Claim C1 evaluated at its failing input: one page feeding the same raw
item (identifier 7) twice in one run.  The second occurrence increments the
consecutive counter as claimed, but its row is still appended, so the run
writes two rows for identifier 7 rather than exactly one: the seen branch of
the loop falls through to the append instead of skipping it. -/
theorem c1_seen_item_row_still_written :
    ((runScraper worldC1 "t" 3 [] 0 0).csv.filter (fun r => r.hdbid == "7")).length = 2 ∧
    (runScraper worldC1 "t" 3 [] 0 0).consecutive = 1 := by
  constructor
  · decide
  · decide

/-- Claim C2 evaluated at its failing input: run one stores the single item
7; before run two the remote source gains a newer item, so the resumed
cursor of run two lands on item 7 again.  The dedup index rebuilt from the
store flags it as seen, yet its row is appended again, so the persisted
store ends up holding identifier 7 twice. -/
theorem c2_duplicate_identifier_persisted :
    ((runScraper worldC2a "t1" 3 [] 0 0).csv.filter (fun r => r.hdbid == "7")).length = 1 ∧
    ((runScraper worldC2b "t2" 3 (runScraper worldC2a "t1" 3 [] 0 0).csv
        (runScraper worldC2a "t1" 3 [] 0 0).offset
        (runScraper worldC2a "t1" 3 [] 0 0).totalScraped).csv.filter
      (fun r => r.hdbid == "7")).length = 2 := by
  constructor
  · decide
  · decide

/-- Claim C3 counterexample: a run resumed over a store of fifty known
identifiers processes a first page of 49 matches, then halts on the first
item of the next three-item page (the fiftieth consecutive match).  That
page consumed one raw item, but the persisted offset advances from 49 to 52,
by the full page length of three, not by the number of items consumed. -/
theorem c3_counterexample :
    rsC3mid.offset = 49 ∧
    rsC3mid.consecutive = 49 ∧
    (runLoop worldC3 "t" 2 rsC3start).offset = 52 ∧
    consumedItems worldC3 "t" (worldC3.page rsC3mid.offset) (scanOf rsC3mid) = 1 ∧
    ¬ ((runLoop worldC3 "t" 2 rsC3start).offset =
        rsC3mid.offset +
          consumedItems worldC3 "t" (worldC3.page rsC3mid.offset) (scanOf rsC3mid)) := by
  decide

/-- Claim C3 amended: after a successfully fetched non-empty page the
persisted offset strictly increases, and it increases by exactly the length
of the fetched page, whether or not the threshold halted processing before
the page was exhausted. -/
theorem c3_offset_advances_by_page_length (w : World) (now : String)
    (rs : RunState) (h : w.page rs.offset ≠ []) :
    (pageStep w now rs (w.page rs.offset)).offset =
      rs.offset + (w.page rs.offset).length ∧
    rs.offset < (pageStep w now rs (w.page rs.offset)).offset := by
  refine ⟨rfl, ?_⟩
  have hlen : 0 < (w.page rs.offset).length := List.length_pos.mpr h
  show rs.offset < rs.offset + (w.page rs.offset).length
  omega

/-- Claim C3 witness: the amended offset law at a one-item page. -/
theorem c3_offset_advances_witness :
    (pageStep oneItemWorld "t" freshRun (oneItemWorld.page freshRun.offset)).offset =
      freshRun.offset + (oneItemWorld.page freshRun.offset).length ∧
    freshRun.offset <
      (pageStep oneItemWorld "t" freshRun (oneItemWorld.page freshRun.offset)).offset :=
  c3_offset_advances_by_page_length oneItemWorld "t" freshRun (by decide)

end PopCollector
